import Mathlib

/-!
Verification development for the telefetchr download orchestration engine.

Shallow embedding of the core modules:
  - app/utils/state_manager.py  (StateManager: save_state, load_state, backup)
  - app/services/download_service.py  (DownloadService: download_single_file,
    download_selected_files, download_all_files, cancel_download,
    resume_download, cleanup_tasks)

Python dictionaries are embedded as association lists (insertion order
preserved, key assignment updates in place, `del` removes the key).
Timestamps and uuids are passed in as parameters.  Filesystem effects are
made explicit: the persisted state file is a value of an inductive type and
each operation returns the file action it performs.
-/

namespace Telefetchr

/-- Lookup in a Python-dict-like association list (`d.get(k)` / `k in d`). -/
def alookup {α : Type} : List (String × α) → String → Option α
  | [], _ => none
  | (k, v) :: rest, key => if k = key then some v else alookup rest key

/-- Python dict assignment `d[k] = v`: update in place if the key exists,
otherwise append at the end (insertion order). -/
def ainsert {α : Type} : List (String × α) → String → α → List (String × α)
  | [], key, v => [(key, v)]
  | (k, w) :: rest, key, v =>
      if k = key then (k, v) :: rest else (k, w) :: ainsert rest key v

/-- Python dict deletion `del d[k]`. -/
def aerase {α : Type} (d : List (String × α)) (key : String) : List (String × α) :=
  d.filter (fun kv => kv.fst ≠ key)

/-- The keys of a Python-dict-like association list. -/
def akeys {α : Type} (d : List (String × α)) : List String :=
  d.map Prod.fst

/-- One in-flight job entry of `status["concurrent_downloads"]`
(download_service.py lines 45-51). -/
structure JobEntry where
  name : String
  progress : Nat
  total : Nat
  percentage : Nat
  retry_attempt : Option Nat
deriving DecidableEq, Repr

/-- One entry of `status["completed_downloads"]`
(download_service.py lines 208-214). -/
structure CompletedEntry where
  name : String
  path : String
  size : Nat
  percentage : Nat
  completed_at : String
deriving DecidableEq, Repr

/-- The in-memory download status dictionary managed by StateManager
(state_manager.py `_initialize_status`, lines 20-36). -/
structure DownloadStatus where
  active : Bool
  progress : Nat
  total : Nat
  current_file : String
  current_file_progress : Nat
  current_file_size : Nat
  downloaded_bytes : Nat
  concurrent_downloads : List (String × JobEntry)
  completed_downloads : List (String × CompletedEntry)
  cancelled : Bool
  session_id : Option String
  started_at : Option String
  channel : Option String
deriving DecidableEq, Repr

/-- Python truthiness of an optional string (`None` and `""` are falsy). -/
def truthy : Option String → Bool
  | none => false
  | some s => !s.isEmpty

/-- `StateManager._initialize_status` (state_manager.py lines 20-36);
`uuid.uuid4()` is passed in as `sid`. -/
def initStatus (sid : String) : DownloadStatus :=
  { active := false
    progress := 0
    total := 0
    current_file := ""
    current_file_progress := 0
    current_file_size := 0
    downloaded_bytes := 0
    concurrent_downloads := []
    completed_downloads := []
    cancelled := false
    session_id := some sid
    started_at := none
    channel := none }

/-- The serialized projection `state_to_save` built by `save_state`
(state_manager.py lines 44-57): every persisted field of the status,
with `concurrent_downloads` intentionally absent. -/
structure SavedState where
  active : Bool
  progress : Nat
  total : Nat
  current_file : String
  current_file_progress : Nat
  current_file_size : Nat
  downloaded_bytes : Nat
  completed_downloads : List (String × CompletedEntry)
  cancelled : Bool
  session_id : Option String
  started_at : Option String
  channel : Option String
deriving DecidableEq, Repr

/-- The dictionary literal `state_to_save` (state_manager.py lines 44-57). -/
def stateToSave (st : DownloadStatus) : SavedState :=
  { active := st.active
    progress := st.progress
    total := st.total
    current_file := st.current_file
    current_file_progress := st.current_file_progress
    current_file_size := st.current_file_size
    downloaded_bytes := st.downloaded_bytes
    completed_downloads := st.completed_downloads
    cancelled := st.cancelled
    session_id := st.session_id
    started_at := st.started_at
    channel := st.channel }

/-- `self.download_status.update(saved_state)` (state_manager.py line 86):
every key present in the saved dictionary overwrites the in-memory value;
`concurrent_downloads` is not among the saved keys and is kept. -/
def applySaved (mem : DownloadStatus) (sv : SavedState) : DownloadStatus :=
  { active := sv.active
    progress := sv.progress
    total := sv.total
    current_file := sv.current_file
    current_file_progress := sv.current_file_progress
    current_file_size := sv.current_file_size
    downloaded_bytes := sv.downloaded_bytes
    concurrent_downloads := mem.concurrent_downloads
    completed_downloads := sv.completed_downloads
    cancelled := sv.cancelled
    session_id := sv.session_id
    started_at := sv.started_at
    channel := sv.channel }

/-- The persisted state file: absent, syntactically invalid JSON, or a
parsed snapshot. -/
inductive StateFile
  | absent
  | invalid
  | valid (sv : SavedState)
deriving DecidableEq, Repr

/-- What `load_state` does to the file on disk. -/
inductive LoadFileAction
  | keptInPlace
  | deletedFile
  | renamedAside (backupName : String)
deriving DecidableEq, Repr

/-- `StateManager._backup_corrupted_state` (state_manager.py lines 101-109):
renames the state file to `<state_file>.corrupted.<timestamp>`. -/
def corruptedBackupName (stateFilePath : String) (ts : Nat) : String :=
  stateFilePath ++ ".corrupted." ++ toString ts

/-- `StateManager.load_state` (state_manager.py lines 70-99).
Reads the persisted file: on a parse failure the `json.JSONDecodeError`
handler renames the file aside via `_backup_corrupted_state` and the
in-memory status is left untouched; on a parsed snapshot the state is
merged only when both `session_id` and `channel` are truthy, a previously
active session is flipped to inactive and cancelled, and
`concurrent_downloads` is cleared.  The function is total: no failure
propagates to the caller.  Returns (new in-memory status, file at the
state path afterwards, file action taken). -/
def load_state (mem : DownloadStatus) (file : StateFile)
    (stateFilePath : String) (ts : Nat) :
    DownloadStatus × StateFile × LoadFileAction :=
  match file with
  | .absent => (mem, .absent, .keptInPlace)
  | .invalid =>
      (mem, .absent, .renamedAside (corruptedBackupName stateFilePath ts))
  | .valid sv =>
      if truthy sv.session_id && truthy sv.channel then
        let sv2 := if sv.active then { sv with active := false, cancelled := true } else sv
        ({ applySaved mem sv2 with concurrent_downloads := [] },
         .valid sv, .keptInPlace)
      else
        (mem, .valid sv, .keptInPlace)

/-- Outcome of the filesystem steps attempted by `save_state`
(mkdir, temp-file write, atomic replace). -/
inductive FsOutcome
  | allOk
  | failMkdir
  | failWrite
  | failReplace
deriving DecidableEq, Repr

/-- The body of `StateManager.save_state` before exception handling
(state_manager.py lines 41-65): serialize `state_to_save` to a temp file
and atomically replace the state file.  Any filesystem failure raises. -/
def saveStateAttempt (st : DownloadStatus) (out : FsOutcome) :
    Except String StateFile :=
  match out with
  | .allOk => .ok (.valid (stateToSave st))
  | .failMkdir => .error "Error saving state: mkdir failed"
  | .failWrite => .error "Error saving state: write failed"
  | .failReplace => .error "Error saving state: replace failed"

/-- `StateManager.save_state` (state_manager.py lines 38-68): the whole
body runs under `try ... except Exception`, which logs and swallows every
failure, so the function always returns normally; on failure the state
file is left as it was. -/
def save_state (st : DownloadStatus) (out : FsOutcome)
    (file : StateFile) : StateFile :=
  match saveStateAttempt st out with
  | .ok f => f
  | .error _ => file

/-- ASCII lowercasing of one character, as `str.lower()` acts on the
ASCII error messages produced by the service. -/
def lowerChar (c : Char) : Char :=
  if 65 ≤ c.toNat ∧ c.toNat ≤ 90 then Char.ofNat (c.toNat + 32) else c

/-- `error_msg.lower()` as a character list. -/
def lowerStr (s : String) : List Char :=
  s.data.map lowerChar

def listStartsWith : List Char → List Char → Bool
  | [], _ => true
  | _ :: _, [] => false
  | p :: ps, c :: cs => p = c && listStartsWith ps cs

/-- Python substring test `pat in s` over character lists. -/
def listHasInfix (pat : List Char) : List Char → Bool
  | [] => pat.isEmpty
  | c :: cs => listStartsWith pat (c :: cs) || listHasInfix pat cs

/-- The error classification of `download_single_file`
(download_service.py line 233): `"cancelled" in error_msg.lower()`. -/
def isCancelledMsg (msg : String) : Bool :=
  listHasInfix "cancelled".data (lowerStr msg)

/-- The error classification of `download_single_file`
(download_service.py lines 242-247): timeout / stall detection on the
lowercased message. -/
def isTimeoutMsg (msg : String) : Bool :=
  listHasInfix "timeout".data (lowerStr msg) ||
  listHasInfix "timeouterror".data (lowerStr msg) ||
  listHasInfix "stalled".data (lowerStr msg) ||
  listHasInfix "stuck".data (lowerStr msg)

/-- Outcome of one transfer attempt inside `download_single_file`:
the awaited `download_with_monitoring()` either yields a local path (with
the resulting on-disk size), yields no path without raising, or an
exception with message `msg` reaches the attempt's `except` handler
(stall, timeout, cancellation and generic errors are all surfaced as
exceptions with distinguishing messages, lines 186-194 and 229-247). -/
inductive AttemptOutcome
  | gotPath (path : String) (diskSize : Nat)
  | noPath
  | raised (msg : String)
deriving DecidableEq, Repr

/-- The `concurrent_downloads` entry registered at the start of attempt
number `attempt` (0-based), download_service.py lines 45-51. -/
def jobEntryFor (fileName : String) (attempt : Nat) : JobEntry :=
  { name := fileName
    progress := 0
    total := 0
    percentage := 0
    retry_attempt := if 0 < attempt then some (attempt + 1) else none }

/-- Trace of one `download_single_file` invocation: final status, returned
value, number of attempts executed, backoff waits slept between attempts,
and the concurrent entries registered (in order). -/
structure WorkerTrace where
  state : DownloadStatus
  result : Option String
  attemptsMade : Nat
  waits : List Nat
  inserted : List JobEntry
deriving DecidableEq, Repr

/-- One iteration of the retry loop of `download_single_file`
(download_service.py lines 39-262), with `fuel = maxRetries - attempt`
remaining iterations.  Per-tick progress-callback updates only mutate
fields of the registered entry and never change key membership; they are
not modelled.  The success path moves the job to `completed_downloads`
and removes it from `concurrent_downloads` (lines 196-224); the no-path
return leaves the entry in place (lines 225-227); a cancellation message
removes the entry and returns `none` without retrying (lines 233-239);
a timeout/stall message before the last attempt sleeps `2 ^ attempt` and
retries (lines 249-254); any other failure, or the last attempt, removes
the entry and returns `none` (lines 255-262). -/
def workerLoop (outcomes : Nat → AttemptOutcome) (fileName fileId now : String)
    (maxRetries : Nat) : Nat → Nat → DownloadStatus → WorkerTrace
  | 0, _, st =>
      { state := st, result := none, attemptsMade := 0, waits := [], inserted := [] }
  | fuel + 1, attempt, st =>
      let entry := jobEntryFor fileName attempt
      let st1 := { st with
        concurrent_downloads := ainsert st.concurrent_downloads fileId entry }
      match outcomes attempt with
      | .gotPath path diskSize =>
          let finalSize :=
            if diskSize = 0 then
              match alookup st1.concurrent_downloads fileId with
              | some e => e.total
              | none => 0
            else diskSize
          let done : CompletedEntry :=
            { name := fileName, path := path, size := finalSize,
              percentage := 100, completed_at := now }
          let st2 := { st1 with
            completed_downloads := ainsert st1.completed_downloads fileId done,
            concurrent_downloads := aerase st1.concurrent_downloads fileId }
          { state := st2, result := some path, attemptsMade := 1,
            waits := [], inserted := [entry] }
      | .noPath =>
          { state := st1, result := none, attemptsMade := 1,
            waits := [], inserted := [entry] }
      | .raised msg =>
          if isCancelledMsg msg then
            { state := { st1 with
                concurrent_downloads := aerase st1.concurrent_downloads fileId },
              result := none, attemptsMade := 1, waits := [], inserted := [entry] }
          else if isTimeoutMsg msg && attempt < maxRetries - 1 then
            let rest := workerLoop outcomes fileName fileId now maxRetries
              fuel (attempt + 1) st1
            { rest with
              attemptsMade := rest.attemptsMade + 1,
              waits := 2 ^ attempt :: rest.waits,
              inserted := entry :: rest.inserted }
          else
            { state := { st1 with
                concurrent_downloads := aerase st1.concurrent_downloads fileId },
              result := none, attemptsMade := 1, waits := [], inserted := [entry] }

/-- `DownloadService.download_single_file` (download_service.py lines
34-265): the retry loop starting at attempt 0.  The loop body always
returns inside the final iteration, so the fuel `maxRetries` is exact;
the fall-through `return None` at line 265 is the fuel-0 case. -/
def download_single_file (outcomes : Nat → AttemptOutcome)
    (fileName fileId now : String) (st : DownloadStatus)
    (maxRetries : Nat := 3) : WorkerTrace :=
  workerLoop outcomes fileName fileId now maxRetries maxRetries 0 st

/-- A remote message as seen by the orchestrator: its id and whether it
carries media (`message.media`). -/
structure Message where
  id : Int
  hasMedia : Bool
deriving DecidableEq, Repr

/-- Iterations of `range(0, len(msgs), c)`, structurally bounded by the
fuel (one element is consumed per slice, so `l.length` iterations always
suffice when `0 < c`). -/
def chunksOfAux {α : Type} (c : Nat) : Nat → List α → List (List α)
  | 0, _ => []
  | _, [] => []
  | fuel + 1, x :: xs => (x :: xs).take c :: chunksOfAux c fuel ((x :: xs).drop c)

/-- The batch slicing of the orchestrator loops
(download_service.py lines 312-317, 411-416, 634-640):
`for i in range(0, len(msgs), c): batch = msgs[i:i+c]`. -/
def chunksOf {α : Type} (c : Nat) (l : List α) : List (List α) :=
  if c = 0 then [] else chunksOfAux c l.length l

/-- The orchestrator batch loop (download_service.py lines 312-332):
process the batches in order, checking the shared `cancelled` flag before
each batch (`cancelledBefore i` tells whether the flag is set when batch
`i` is reached) and breaking if set; inside a batch each worker outcome is
given by `success`, and `status["progress"]` is set to the running count
of successful results.  Returns the list of progress values observable
after each processed batch, and the final count. -/
def batchLoop (success : Message → Bool) (cancelledBefore : Nat → Bool) :
    List (List Message) → Nat → Nat → List Nat × Nat
  | [], _, acc => ([], acc)
  | b :: bs, i, acc =>
      if cancelledBefore i then ([], acc)
      else
        let acc2 := acc + (b.filter success).length
        let rest := batchLoop success cancelledBefore bs (i + 1) acc2
        (acc2 :: rest.fst, rest.snd)

/-- A task handle in the `active_download_tasks` registry: still running,
finished naturally, or cancelled. -/
inductive TaskState
  | running
  | finishedTask
  | cancelledTask
deriving DecidableEq, Repr

/-- `task.cancel()` guarded by `if not task.done()`. -/
def cancelTask : TaskState → TaskState
  | .running => .cancelledTask
  | t => t

/-- The runtime transition when the background task registered for `sid`
completes on its own: the task handle becomes done, and the service code
performs no registry mutation on this event (no removal accompanies
natural completion anywhere in download_service.py). -/
def taskFinishNaturally (tasks : List (String × TaskState)) (sid : String) :
    List (String × TaskState) :=
  tasks.map (fun kv => if kv.fst = sid then (kv.fst, TaskState.finishedTask) else kv)

/-- `DownloadService.cleanup_tasks` (download_service.py lines 684-689):
cancel every not-yet-done task; no entry is removed from the registry. -/
def cleanup_tasks (tasks : List (String × TaskState)) :
    List (String × TaskState) :=
  tasks.map (fun kv => (kv.fst, cancelTask kv.snd))

/-- The fresh session status installed by the `update_status` call of
`download_selected_files` (download_service.py lines 273-287); `sid` is
the new `uuid.uuid4()`, `now` the timestamp. -/
def freshSelectedStatus (st : DownloadStatus) (channel : String)
    (messageIds : List Int) (sid now : String) : DownloadStatus :=
  { st with
    active := true
    progress := 0
    total := messageIds.length
    current_file := ""
    current_file_progress := 0
    current_file_size := 0
    downloaded_bytes := 0
    concurrent_downloads := []
    completed_downloads := []
    cancelled := false
    session_id := some sid
    started_at := some now
    channel := some channel }

/-- The synchronous part of `DownloadService.download_selected_files`
(download_service.py lines 267-350): unconditionally install a fresh
session status via `update_status` (persisting it), register the
background task under the new session id, and return the session id.
There is no check of `status["active"]` anywhere on this path. -/
def download_selected_files (st : DownloadStatus)
    (tasks : List (String × TaskState)) (channel : String)
    (messageIds : List Int) (sid now : String) :
    DownloadStatus × StateFile × List (String × TaskState) × String :=
  let st2 := freshSelectedStatus st channel messageIds sid now
  (st2, .valid (stateToSave st2), ainsert tasks sid .running, sid)

/-- The synchronous part of `DownloadService.download_all_files`
(download_service.py lines 352-449): identical to
`download_selected_files` except that `total` starts at 0 (the work set
is only resolved inside the background task).  Again no `active` check. -/
def download_all_files (st : DownloadStatus)
    (tasks : List (String × TaskState)) (channel : String) (sid now : String) :
    DownloadStatus × StateFile × List (String × TaskState) × String :=
  let st2 := { freshSelectedStatus st channel [] sid now with total := 0 }
  (st2, .valid (stateToSave st2), ainsert tasks sid .running, sid)

/-- `DownloadService.cancel_download` (download_service.py lines 531-568).
When a session is active (or a single-file transfer shows progress): set
the sticky `cancelled` flag, cancel and deregister the session's task
handle if one is registered, then mark the session inactive, set
`progress` to the completed count, clear the per-file fields and the
`concurrent_downloads` map.  Otherwise report that nothing is active.
Returns (status, registry, `true` for the success outcome / `false` for
the nothing-to-cancel info outcome). -/
def cancel_download (st : DownloadStatus)
    (tasks : List (String × TaskState)) :
    DownloadStatus × List (String × TaskState) × Bool :=
  if st.active || 0 < st.current_file_progress then
    let st1 := { st with cancelled := true }
    let tasks2 :=
      match st1.session_id with
      | some sid =>
          if !sid.isEmpty && (alookup tasks sid).isSome then
            aerase (tasks.map (fun kv =>
              if kv.fst = sid then (kv.fst, cancelTask kv.snd) else kv)) sid
          else tasks
      | none => tasks
    let st2 := { st1 with
      active := false
      progress := st1.completed_downloads.length
      current_file := ""
      current_file_progress := 0
      current_file_size := 0
      downloaded_bytes := 0
      concurrent_downloads := []
      cancelled := true }
    (st2, tasks2, true)
  else
    (st, tasks, false)

def digitVal (c : Char) : Option Nat :=
  if 48 ≤ c.toNat ∧ c.toNat ≤ 57 then some (c.toNat - 48) else none

def parseNatChars (cs : List Char) : Option Nat :=
  cs.foldl
    (fun acc c =>
      match acc, digitVal c with
      | some n, some d => some (n * 10 + d)
      | _, _ => none)
    (if cs.isEmpty then none else some 0)

/-- Python `int(s)` on the substrings produced by splitting a job id on
underscores: optional sign followed by decimal digits; anything else
raises, which the caller swallows (`none`). -/
def parseIntChars : List Char → Option Int
  | '-' :: cs => (parseNatChars cs).map (fun n => -(n : Int))
  | '+' :: cs => (parseNatChars cs).map (fun n => (n : Int))
  | cs => (parseNatChars cs).map (fun n => (n : Int))

/-- Python `s.split("_")` over the character list of a job id. -/
def splitOnChar (sep : Char) : List Char → List (List Char)
  | [] => [[]]
  | c :: cs =>
      let rest := splitOnChar sep cs
      if c = sep then [] :: rest
      else
        match rest with
        | [] => [[c]]
        | r :: rs => (c :: r) :: rs

/-- The completed-id extraction of `resume_download`
(download_service.py lines 590-598): for each key of
`completed_downloads` containing an underscore (at least two split
parts) and splitting into at least three parts, parse the last part as
an integer; parse failures are swallowed.  The Python code collects
these into a set; membership is what matters, so the parsed ids are kept
as a list in entry order. -/
def completedIds (completed : List (String × CompletedEntry)) : List Int :=
  completed.foldr (fun kv acc =>
    let parts := splitOnChar '_' kv.fst.data
    if 2 ≤ parts.length then
      if 3 ≤ parts.length then
        match parts.getLast? with
        | some lastPart =>
            match parseIntChars lastPart with
            | some n => n :: acc
            | none => acc
        | none => acc
      else acc
    else acc) []

/-- Outcome reported by `resume_download`. -/
inductive ResumeOutcome
  | noSavedSession
  | alreadyInProgress
  | resumed (completedCount : Nat) (total : Nat)
deriving DecidableEq, Repr

/-- `DownloadService.resume_download` (download_service.py lines 570-682).
Fails when no channel is on record; reports already-in-progress when the
session is active.  Otherwise parses the completed ids from the
`completed_downloads` keys, re-resolves the work set (`resolved` is the
message sequence produced by the content source for the saved channel and
total), keeps exactly the messages that carry media and whose id is not
among the completed ids (line 617), marks the session active and
not-cancelled, and issues one transfer job per kept message.  Returns
(status, issued jobs, outcome). -/
def resume_download (st : DownloadStatus) (resolved : List Message)
    (freshSid : String) :
    DownloadStatus × List Message × ResumeOutcome :=
  if !truthy st.channel then
    (st, [], .noSavedSession)
  else if st.active then
    (st, [], .alreadyInProgress)
  else
    let ids := completedIds st.completed_downloads
    let toDownload := resolved.filter
      (fun m => m.hasMedia && !ids.contains m.id)
    let sid := if truthy st.session_id then st.session_id else some freshSid
    let st2 := { st with active := true, cancelled := false, session_id := sid }
    (st2, toDownload, .resumed ids.length st.total)

/-! ### Sample values used by witnesses and counterexamples -/

/-- A sample completed-job entry. -/
def ce1 : CompletedEntry :=
  { name := "a.bin", path := "/downloads/a.bin", size := 10,
    percentage := 100, completed_at := "t1" }

/-- A second sample completed-job entry. -/
def ce2 : CompletedEntry :=
  { name := "b.jpg", path := "/downloads/b.jpg", size := 20,
    percentage := 100, completed_at := "t2" }

/-- A status mid-session: active, two jobs completed out of five. -/
def activeState : DownloadStatus :=
  { initStatus "sess1" with
    active := true
    progress := 2
    total := 5
    completed_downloads := [("file_0_10", ce1), ("file_1_11", ce2)]
    started_at := some "t0"
    channel := some "chan" }

/-! ### Helper lemmas about the dictionary embedding -/

theorem alookup_aerase {α : Type} (d : List (String × α)) (k : String) :
    alookup (aerase d k) k = none := by
  induction d with
  | nil => rfl
  | cons kv rest ih =>
      by_cases h : kv.fst = k
      · simpa [aerase, h] using ih
      · simpa [aerase, alookup, h] using ih

theorem akeys_taskFinishNaturally (tasks : List (String × TaskState))
    (sid : String) : akeys (taskFinishNaturally tasks sid) = akeys tasks := by
  induction tasks with
  | nil => rfl
  | cons kv rest ih =>
      by_cases h : kv.fst = sid <;>
        simpa [taskFinishNaturally, akeys, h] using ih

theorem akeys_cleanup_tasks (tasks : List (String × TaskState)) :
    akeys (cleanup_tasks tasks) = akeys tasks := by
  simp [cleanup_tasks, akeys, List.map_map, Function.comp]

/-! ### Claim theorems -/

theorem alookup_ainsert {α : Type} (d : List (String × α)) (k : String)
    (v : α) : alookup (ainsert d k v) k = some v := by
  induction d with
  | nil => simp [ainsert, alookup]
  | cons kv rest ih => by_cases h : kv.fst = k <;> simp [ainsert, alookup, h, ih]

/-- The save-then-load round trip: persist `st` successfully, then load
the resulting file into a freshly initialized StateManager — the restart
sequence of main.py lines 42-44 (`StateManager()` then `load_state()`). -/
def saveLoadRoundTrip (st : DownloadStatus) (freshSid path : String)
    (ts : Nat) : DownloadStatus :=
  (load_state (initStatus freshSid)
    (save_state st FsOutcome.allOk StateFile.absent) path ts).1

/-- C5: for every syntactically invalid persisted state file, `load_state`
returns normally (the embedding is a total function), leaves the in-memory
state exactly at the default produced by `_initialize_status`, and renames
the file aside to the timestamped corrupted-backup name rather than
deleting it or keeping it in place. -/
theorem load_state_invalid_quarantines (sid path : String) (ts : Nat) :
    load_state (initStatus sid) StateFile.invalid path ts =
      (initStatus sid, StateFile.absent,
       LoadFileAction.renamedAside (path ++ ".corrupted." ++ toString ts)) := rfl

/-- C10: `save_state` never raises: for every state and filesystem
outcome, either the body succeeds and the snapshot is written, or the
body raises and the exception is caught and swallowed, leaving the
on-disk file unchanged — the caller observes no failure either way. -/
theorem save_state_never_raises (st : DownloadStatus) (out : FsOutcome)
    (file : StateFile) :
    (∃ f, saveStateAttempt st out = Except.ok f ∧ save_state st out file = f) ∨
    (∃ msg, saveStateAttempt st out = Except.error msg ∧
      save_state st out file = file) := by
  cases out
  · exact Or.inl ⟨StateFile.valid (stateToSave st), rfl, rfl⟩
  · exact Or.inr ⟨"Error saving state: mkdir failed", rfl, rfl⟩
  · exact Or.inr ⟨"Error saving state: write failed", rfl, rfl⟩
  · exact Or.inr ⟨"Error saving state: replace failed", rfl, rfl⟩

/-- C4: cancelling while a session is active keeps every completed entry
unchanged, sets `active := false` and `cancelled := true`, empties
`concurrent_downloads`, preserves `session_id` and `channel`, and reports
the success outcome. -/
theorem cancel_download_preserves_completed (st : DownloadStatus)
    (tasks : List (String × TaskState)) (h : st.active = true) :
    (cancel_download st tasks).1.completed_downloads = st.completed_downloads ∧
    (cancel_download st tasks).1.active = false ∧
    (cancel_download st tasks).1.cancelled = true ∧
    (cancel_download st tasks).1.concurrent_downloads = [] ∧
    (cancel_download st tasks).1.session_id = st.session_id ∧
    (cancel_download st tasks).1.channel = st.channel ∧
    (cancel_download st tasks).2.2 = true := by
  simp [cancel_download, h]

/-- Witness for C4 at a concrete mid-session state. -/
theorem cancel_download_preserves_completed_witness :
    activeState.active = true ∧
    ((cancel_download activeState [("sess1", TaskState.running)]).1.completed_downloads
        = activeState.completed_downloads ∧
      (cancel_download activeState [("sess1", TaskState.running)]).1.active = false ∧
      (cancel_download activeState [("sess1", TaskState.running)]).1.cancelled = true ∧
      (cancel_download activeState [("sess1", TaskState.running)]).1.concurrent_downloads = [] ∧
      (cancel_download activeState [("sess1", TaskState.running)]).1.session_id
        = activeState.session_id ∧
      (cancel_download activeState [("sess1", TaskState.running)]).1.channel
        = activeState.channel ∧
      (cancel_download activeState [("sess1", TaskState.running)]).2.2 = true) :=
  ⟨by decide,
   cancel_download_preserves_completed activeState
     [("sess1", TaskState.running)] (by decide)⟩

/-- C1 counterexample: with a session active (`activeState.active`),
`download_selected_files` does not fail with an AlreadyActive error — it
proceeds, returns the fresh session id, clears the completed jobs of the
existing session and replaces its `session_id`; `download_all_files`
behaves the same.  This refutes the claim that starting a new session
while one is active fails and leaves the existing session's state in
place. -/
theorem start_ignores_active_cex :
    activeState.active = true ∧
    (download_selected_files activeState [] "chan" [1, 2] "newsid" "t9").2.2.2
      = "newsid" ∧
    (download_selected_files activeState [] "chan" [1, 2] "newsid" "t9").1.completed_downloads
      = [] ∧
    activeState.completed_downloads ≠ [] ∧
    (download_selected_files activeState [] "chan" [1, 2] "newsid" "t9").1.session_id
      ≠ activeState.session_id ∧
    (download_all_files activeState [] "chan" "newsid" "t9").1.completed_downloads
      = [] ∧
    (download_all_files activeState [] "chan" "newsid" "t9").2.2.2 = "newsid" := by
  decide

/-- C1 (amended): starting a new session never fails and performs no
active-session check: for every prior state — active or not —
`download_selected_files` and `download_all_files` reset progress, clear
the completed-jobs map, assign the fresh `session_id`, persist the
initial snapshot, register the background task under the new id, and
return the new session id, replacing the prior session's state. -/
theorem start_always_replaces (st : DownloadStatus)
    (tasks : List (String × TaskState)) (channel : String)
    (messageIds : List Int) (sid now : String) :
    (download_selected_files st tasks channel messageIds sid now).1.active = true ∧
    (download_selected_files st tasks channel messageIds sid now).1.progress = 0 ∧
    (download_selected_files st tasks channel messageIds sid now).1.total
      = messageIds.length ∧
    (download_selected_files st tasks channel messageIds sid now).1.completed_downloads
      = [] ∧
    (download_selected_files st tasks channel messageIds sid now).1.concurrent_downloads
      = [] ∧
    (download_selected_files st tasks channel messageIds sid now).1.cancelled = false ∧
    (download_selected_files st tasks channel messageIds sid now).1.session_id
      = some sid ∧
    (download_selected_files st tasks channel messageIds sid now).1.started_at
      = some now ∧
    (download_selected_files st tasks channel messageIds sid now).1.channel
      = some channel ∧
    (download_selected_files st tasks channel messageIds sid now).2.1
      = StateFile.valid (stateToSave
          (download_selected_files st tasks channel messageIds sid now).1) ∧
    alookup (download_selected_files st tasks channel messageIds sid now).2.2.1 sid
      = some TaskState.running ∧
    (download_selected_files st tasks channel messageIds sid now).2.2.2 = sid ∧
    (download_all_files st tasks channel sid now).1.active = true ∧
    (download_all_files st tasks channel sid now).1.progress = 0 ∧
    (download_all_files st tasks channel sid now).1.total = 0 ∧
    (download_all_files st tasks channel sid now).1.completed_downloads = [] ∧
    (download_all_files st tasks channel sid now).1.session_id = some sid ∧
    (download_all_files st tasks channel sid now).2.2.2 = sid :=
  ⟨rfl, rfl, rfl, rfl, rfl, rfl, rfl, rfl, rfl, rfl,
   alookup_ainsert tasks sid TaskState.running, rfl,
   rfl, rfl, rfl, rfl, rfl, rfl⟩

/-- C9 counterexample: the save/load round trip is not the identity on
the persisted fields.  A state saved while `active` comes back with
`active = false` and `cancelled = true` (load_state lines 79-83), and a
state whose `channel` is unset is not restored at all (its saved
`progress` is lost and the fresh default remains). -/
theorem roundtrip_not_identity_cex :
    (saveLoadRoundTrip activeState "fresh" "p" 0).active ≠ activeState.active ∧
    (saveLoadRoundTrip activeState "fresh" "p" 0).cancelled
      ≠ activeState.cancelled ∧
    (saveLoadRoundTrip { initStatus "s2" with progress := 3 } "fresh" "p" 0).progress
      ≠ ({ initStatus "s2" with progress := 3 } : DownloadStatus).progress := by
  decide

/-- C9 (amended): for every state whose `session_id` and `channel` are
both truthy, `save_state` followed by `load_state` on the uncorrupted
file restores every persisted field (progress, total, completed
downloads, session identity, timestamps, byte counters) and leaves
`concurrent_downloads` empty — except that a state saved while active
comes back inactive with `cancelled = true`. -/
theorem roundtrip_preserves (st : DownloadStatus) (freshSid path : String)
    (ts : Nat) (h1 : truthy st.session_id = true)
    (h2 : truthy st.channel = true) :
    saveLoadRoundTrip st freshSid path ts =
      if st.active then
        { st with active := false, cancelled := true, concurrent_downloads := [] }
      else { st with concurrent_downloads := [] } := by
  cases st with
  | mk active progress total cf cfp cfs db conc comp canc sid sa ch =>
      cases active <;>
        simp_all [saveLoadRoundTrip, save_state, saveStateAttempt, load_state,
          stateToSave, applySaved]

/-- Witness for C9 (amended) at a concrete active mid-session state. -/
theorem roundtrip_preserves_witness :
    truthy activeState.session_id = true ∧
    truthy activeState.channel = true ∧
    saveLoadRoundTrip activeState "fresh" "p" 7 =
      (if activeState.active then
        { activeState with
            active := false
            cancelled := true
            concurrent_downloads := [] }
      else { activeState with concurrent_downloads := [] }) :=
  ⟨by decide, by decide,
   roundtrip_preserves activeState "fresh" "p" 7 (by decide) (by decide)⟩

/-- The registry produced by starting a session from a clean state:
one entry mapping the new session id to its running task handle. -/
def startedTasks : List (String × TaskState) :=
  (download_selected_files (initStatus "s0") [] "chan" [1] "sid1" "t0").2.2.1

/-- C8 counterexample: the code removes nothing from
`active_download_tasks` when a task finishes naturally, and
`cleanup_tasks` cancels tasks without deregistering them — so a finished
(resp. cancelled) task handle remains in the registry, refuting the
claim that the registry holds only running tasks. -/
theorem registry_retains_done_cex :
    alookup (taskFinishNaturally startedTasks "sid1") "sid1"
      = some TaskState.finishedTask ∧
    alookup (cleanup_tasks startedTasks) "sid1"
      = some TaskState.cancelledTask := by
  decide

/-- C8 (amended): entries leave `active_download_tasks` only through
`cancel_download`, which cancels and removes the active session's entry;
a task that finishes naturally keeps its (done) handle registered, and
`cleanup_tasks` cancels still-running tasks while leaving every key in
the registry. -/
theorem registry_pruned_only_on_cancel (st : DownloadStatus)
    (tasks : List (String × TaskState)) (sid : String)
    (hact : st.active = true) (hsid : st.session_id = some sid)
    (hne : sid.isEmpty = false)
    (hreg : (alookup tasks sid).isSome = true) :
    alookup (cancel_download st tasks).2.1 sid = none ∧
    akeys (taskFinishNaturally tasks sid) = akeys tasks ∧
    akeys (cleanup_tasks tasks) = akeys tasks := by
  refine ⟨?_, akeys_taskFinishNaturally tasks sid, akeys_cleanup_tasks tasks⟩
  simp [cancel_download, hact, hsid, hne, hreg, alookup_aerase]

/-- Witness for C8 (amended): cancelling the concrete active session
empties the one-entry registry, while finish/cleanup keep its key. -/
theorem registry_pruned_only_on_cancel_witness :
    activeState.active = true ∧
    activeState.session_id = some "sess1" ∧
    "sess1".isEmpty = false ∧
    (alookup [("sess1", TaskState.running)] "sess1").isSome = true ∧
    (alookup (cancel_download activeState [("sess1", TaskState.running)]).2.1 "sess1"
        = none ∧
      akeys (taskFinishNaturally [("sess1", TaskState.running)] "sess1")
        = akeys [("sess1", TaskState.running)] ∧
      akeys (cleanup_tasks [("sess1", TaskState.running)])
        = akeys [("sess1", TaskState.running)]) :=
  ⟨by decide, by decide, by decide, by decide,
   registry_pruned_only_on_cancel activeState [("sess1", TaskState.running)]
     "sess1" (by decide) (by decide) (by decide) (by decide)⟩

/-- Helper for C2: when no attempt yields a bare missing path, every
return of the retry loop removes `fileId` from `concurrent_downloads`.
`maxRetries ≤ attempt + fuel` is the loop invariant tying the remaining
fuel to the attempt counter. -/
theorem workerLoop_clears (outcomes : Nat → AttemptOutcome)
    (fileName fileId now : String) (maxRetries : Nat)
    (hnp : ∀ n, outcomes n ≠ AttemptOutcome.noPath) :
    ∀ fuel attempt st, 0 < fuel → maxRetries ≤ attempt + fuel →
      alookup (workerLoop outcomes fileName fileId now maxRetries fuel
          attempt st).state.concurrent_downloads fileId = none := by
  intro fuel
  induction fuel with
  | zero => intro attempt st h _; exact absurd h (Nat.lt_irrefl 0)
  | succ fuel ih =>
      intro attempt st _ hinv
      cases hout : outcomes attempt with
      | gotPath path diskSize =>
          simp [workerLoop, hout, alookup_aerase]
      | noPath => exact absurd hout (hnp attempt)
      | raised msg =>
          by_cases hcm : isCancelledMsg msg
          · simp [workerLoop, hout, hcm, alookup_aerase]
          · cases htm : (isTimeoutMsg msg && decide (attempt < maxRetries - 1)) with
            | true =>
                have hlt : attempt < maxRetries - 1 :=
                  of_decide_eq_true ((Bool.and_eq_true _ _).mp htm).2
                have hfuel : 0 < fuel := by omega
                have hinv2 : maxRetries ≤ (attempt + 1) + fuel := by omega
                have hrec := ih (attempt + 1) ({ st with concurrent_downloads := ainsert st.concurrent_downloads fileId (jobEntryFor fileName attempt) }) hfuel hinv2
                simpa [workerLoop, hout, hcm, htm] using hrec
            | false => simp [workerLoop, hout, hcm, htm, alookup_aerase]

/-- The worker trace for a transfer that completes but yields no path
(telegram `download_media` returned `None` without raising),
download_service.py lines 225-227. -/
def noPathTrace : WorkerTrace :=
  download_single_file (fun _ => AttemptOutcome.noPath) "a.bin" "file_0_10"
    "t1" (initStatus "s") 3

/-- C2 counterexample: when the transfer returns no path without raising,
`download_single_file` returns `None` but leaves the `file_0_10` entry in
`concurrent_downloads` (no deletion on the lines 225-227 path), refuting
the claim that `file_id` is gone after every return. -/
theorem worker_leaves_concurrent_cex :
    noPathTrace.result = none ∧
    alookup noPathTrace.state.concurrent_downloads "file_0_10"
      = some (jobEntryFor "a.bin" 0) := by decide

/-- C2 (amended): on every return path except the transfer completing
with no path and no exception — i.e. success, cancellation, exhausted
retries, or any raised failure — `download_single_file` removes `file_id`
from `concurrent_downloads` before returning. -/
theorem worker_clears_concurrent (outcomes : Nat → AttemptOutcome)
    (fileName fileId now : String) (st : DownloadStatus) (maxRetries : Nat)
    (hmr : 0 < maxRetries)
    (hnp : ∀ n, outcomes n ≠ AttemptOutcome.noPath) :
    alookup (download_single_file outcomes fileName fileId now st
        maxRetries).state.concurrent_downloads fileId = none :=
  workerLoop_clears outcomes fileName fileId now maxRetries hnp
    maxRetries 0 st hmr (by omega)

/-- Witness for C2 (amended): a worker whose only attempt raises a
generic failure ends with no `fid` entry in `concurrent_downloads`. -/
theorem worker_clears_concurrent_witness :
    0 < 3 ∧
    (∀ n : Nat,
      (fun _ => AttemptOutcome.raised "boom") n ≠ AttemptOutcome.noPath) ∧
    alookup (download_single_file (fun _ => AttemptOutcome.raised "boom")
        "a.bin" "fid" "t" (initStatus "s") 3).state.concurrent_downloads "fid"
      = none :=
  ⟨by decide, fun _ h => AttemptOutcome.noConfusion h,
   worker_clears_concurrent (fun _ => AttemptOutcome.raised "boom")
     "a.bin" "fid" "t" (initStatus "s") 3 (by decide)
     (fun _ h => AttemptOutcome.noConfusion h)⟩

/-- C6: a worker whose every attempt fails with a stall/timeout message
(and not a cancellation) performs exactly the maximum 3 attempts, sleeps
`2 ^ attempt` time-units between attempts — the strictly increasing
sequence `[2^0, 2^1]` — records the attempt number (`attempt + 1`) in the
registered job entries, returns no result, leaves
`completed_downloads` unchanged (the item stays absent), removes the
job from `concurrent_downloads`, and propagates no exception (the
embedding returns a value on every input). -/
theorem worker_retries_with_backoff (st : DownloadStatus)
    (fileName fileId now : String) (msgs : Nat → String)
    (ht : ∀ n, isTimeoutMsg (msgs n) = true)
    (hcm : ∀ n, isCancelledMsg (msgs n) = false) :
    (download_single_file (fun n => AttemptOutcome.raised (msgs n))
        fileName fileId now st 3).attemptsMade = 3 ∧
    (download_single_file (fun n => AttemptOutcome.raised (msgs n))
        fileName fileId now st 3).waits = [2 ^ 0, 2 ^ 1] ∧
    List.Chain' (· < ·) (download_single_file
        (fun n => AttemptOutcome.raised (msgs n)) fileName fileId now st 3).waits ∧
    (download_single_file (fun n => AttemptOutcome.raised (msgs n))
        fileName fileId now st 3).result = none ∧
    (download_single_file (fun n => AttemptOutcome.raised (msgs n))
        fileName fileId now st 3).state.completed_downloads
      = st.completed_downloads ∧
    alookup (download_single_file (fun n => AttemptOutcome.raised (msgs n))
        fileName fileId now st 3).state.concurrent_downloads fileId = none ∧
    (download_single_file (fun n => AttemptOutcome.raised (msgs n))
        fileName fileId now st 3).inserted.map JobEntry.retry_attempt
      = [none, some 2, some 3] := by
  simp [download_single_file, workerLoop, ht 0, ht 1, ht 2, hcm 0, hcm 1,
    hcm 2, jobEntryFor, alookup_aerase]

/-- Helper for C3: splitting a list by a boolean predicate preserves
total length. -/
theorem length_filter_not_add {α : Type} (l : List α) (p : α → Bool) :
    (l.filter (fun a => !p a)).length + (l.filter p).length = l.length := by
  induction l with
  | nil => rfl
  | cons a t ih => cases hpa : p a <;> simp [List.filter_cons, hpa] <;> omega

/-- Helper for C3: filtering messages by an id-level predicate commutes
with projecting the ids. -/
theorem filter_contains_map (resolved : List Message) (ids : List Int) :
    (resolved.filter (fun m => ids.contains m.id)).map Message.id
      = (resolved.map Message.id).filter (fun x => ids.contains x) := by
  induction resolved with
  | nil => rfl
  | cons m t ih =>
      by_cases h : m.id ∈ ids <;> simp [List.filter_cons, h] <;>
        simpa using ih

/-- Helper for C3: in a duplicate-free list, the elements belonging to a
duplicate-free sublist-of-members `ids` are exactly `ids.length` many. -/
theorem length_filter_mem_of_nodup (l ids : List Int) (hl : l.Nodup)
    (hids : ids.Nodup) (hsub : ∀ i ∈ ids, i ∈ l) :
    (l.filter (fun x => ids.contains x)).length = ids.length := by
  have hf : (l.filter (fun x => ids.contains x)).Nodup := hl.filter _
  have hset : (l.filter (fun x => ids.contains x)).toFinset = ids.toFinset := by
    ext x
    constructor
    · intro hx
      rcases List.mem_filter.mp (List.mem_toFinset.mp hx) with ⟨h1, h2⟩
      rw [List.mem_toFinset]
      simpa using h2
    · intro hx
      have hxids : x ∈ ids := List.mem_toFinset.mp hx
      rw [List.mem_toFinset]
      exact List.mem_filter.mpr ⟨hsub x hxids, by simpa using hxids⟩
  calc (l.filter (fun x => ids.contains x)).length
      = (l.filter (fun x => ids.contains x)).toFinset.card :=
        (List.toFinset_card_of_nodup hf).symm
    _ = ids.toFinset.card := by rw [hset]
    _ = ids.length := List.toFinset_card_of_nodup hids

/-- C3: from a resumable state (channel saved, not active) with `N`
resolved media items of pairwise distinct ids and `k` completed entries
whose keys each encode a distinct id occurring among the resolved ids,
`resume_download` issues transfers for exactly the items whose id is not
encoded in the `completed_downloads` keys — `N − k` of them — and never
issues a transfer for an id already present in `completed_downloads`. -/
theorem resume_skips_completed (st : DownloadStatus)
    (resolved : List Message) (freshSid : String)
    (hch : truthy st.channel = true) (hact : st.active = false)
    (hmedia : ∀ m ∈ resolved, m.hasMedia = true)
    (hnodup : (resolved.map Message.id).Nodup)
    (hparse : (completedIds st.completed_downloads).length
      = st.completed_downloads.length)
    (hidnodup : (completedIds st.completed_downloads).Nodup)
    (hsub : ∀ i ∈ completedIds st.completed_downloads,
      i ∈ resolved.map Message.id) :
    (resume_download st resolved freshSid).2.1
      = resolved.filter
          (fun m => !(completedIds st.completed_downloads).contains m.id) ∧
    (∀ m ∈ (resume_download st resolved freshSid).2.1,
      m.id ∉ completedIds st.completed_downloads) ∧
    (resume_download st resolved freshSid).2.1.length
      = resolved.length - st.completed_downloads.length := by
  have hres : (resume_download st resolved freshSid).2.1
      = resolved.filter
          (fun m => m.hasMedia
            && !(completedIds st.completed_downloads).contains m.id) := by
    simp [resume_download, hch, hact]
  have hcongr : resolved.filter
        (fun m => m.hasMedia
          && !(completedIds st.completed_downloads).contains m.id)
      = resolved.filter
          (fun m => !(completedIds st.completed_downloads).contains m.id) :=
    List.filter_congr (fun m hm => by simp [hmedia m hm])
  have hfilter : (resume_download st resolved freshSid).2.1
      = resolved.filter
          (fun m => !(completedIds st.completed_downloads).contains m.id) :=
    hres.trans hcongr
  refine ⟨hfilter, ?_, ?_⟩
  · intro m hm
    rw [hfilter] at hm
    have := (List.mem_filter.mp hm).2
    simpa using this
  · rw [hfilter]
    have hsplit := length_filter_not_add resolved
      (fun m => (completedIds st.completed_downloads).contains m.id)
    have hmap : (resolved.filter
          (fun m => (completedIds st.completed_downloads).contains m.id)).length
        = ((resolved.map Message.id).filter
            (fun x => (completedIds st.completed_downloads).contains x)).length := by
      rw [← filter_contains_map]
      simp
    have hcount : ((resolved.map Message.id).filter
          (fun x => (completedIds st.completed_downloads).contains x)).length
        = (completedIds st.completed_downloads).length :=
      length_filter_mem_of_nodup _ _ hnodup hidnodup hsub
    omega

/-- Witness for C3: two completed entries with keys encoding ids 10 and
11; of the three resolved items only id 12 gets a transfer. -/
theorem resume_skips_completed_witness :
    truthy activeState.channel = true ∧
    ({ activeState with active := false } : DownloadStatus).active = false ∧
    (resume_download { activeState with active := false }
        [⟨10, true⟩, ⟨11, true⟩, ⟨12, true⟩] "fsid").2.1
      = [⟨12, true⟩] ∧
    (resume_download { activeState with active := false }
        [⟨10, true⟩, ⟨11, true⟩, ⟨12, true⟩] "fsid").2.1.length = 3 - 2 := by
  have h := resume_skips_completed { activeState with active := false }
    [⟨10, true⟩, ⟨11, true⟩, ⟨12, true⟩] "fsid"
    (by decide) (by decide) (by decide) (by decide) (by decide) (by decide)
    (by decide)
  refine ⟨by decide, by decide, ?_, ?_⟩
  · rw [h.1]; decide
  · have := h.2.2; simpa using this

theorem chunksOfAux_nil {α : Type} (c fuel : Nat) :
    chunksOfAux c fuel ([] : List α) = [] := by
  cases fuel <;> rfl

/-- Helper for C7: with enough fuel the batch slices concatenate back to
the original list. -/
theorem chunksOfAux_join {α : Type} (c : Nat) (hc : 0 < c) :
    ∀ (fuel : Nat) (l : List α), l.length ≤ fuel →
      (chunksOfAux c fuel l).flatten = l := by
  intro fuel
  induction fuel with
  | zero =>
      intro l hl
      have hnil : l = [] := List.eq_nil_of_length_eq_zero (Nat.le_zero.mp hl)
      subst hnil; rfl
  | succ fuel ih =>
      intro l hl
      cases l with
      | nil => rfl
      | cons x xs =>
          have hl2 : xs.length + 1 ≤ fuel + 1 := by simpa using hl
          have hdrop : ((x :: xs).drop c).length ≤ fuel := by
            rw [List.length_drop]
            simp only [List.length_cons]
            omega
          show (x :: xs).take c ++ (chunksOfAux c fuel ((x :: xs).drop c)).flatten
              = x :: xs
          rw [ih _ hdrop]
          exact List.take_append_drop c (x :: xs)

/-- Helper for C7: the batch sizes in closed form — `len / c` full batches
of size `c`, then one final batch of `len % c` when that is nonzero. -/
theorem chunksOfAux_map_length {α : Type} (c : Nat) (hc : 0 < c) :
    ∀ (fuel : Nat) (l : List α), l.length ≤ fuel →
      (chunksOfAux c fuel l).map List.length
        = List.replicate (l.length / c) c
            ++ (if l.length % c = 0 then [] else [l.length % c]) := by
  intro fuel
  induction fuel with
  | zero =>
      intro l hl
      have hnil : l = [] := List.eq_nil_of_length_eq_zero (Nat.le_zero.mp hl)
      subst hnil; simp [chunksOfAux]
  | succ fuel ih =>
      intro l hl
      cases l with
      | nil => simp [chunksOfAux_nil]
      | cons x xs =>
          rcases lt_or_ge (x :: xs).length c with hlt | hge
          · have hdropnil : (x :: xs).drop c = [] :=
              List.drop_eq_nil_of_le (le_of_lt hlt)
            have h1 : (x :: xs).length / c = 0 := Nat.div_eq_of_lt hlt
            have h2 : (x :: xs).length % c = (x :: xs).length :=
              Nat.mod_eq_of_lt hlt
            have htake : ((x :: xs).take c).length = (x :: xs).length := by
              rw [List.length_take]
              exact Nat.min_eq_right (le_of_lt hlt)
            calc (chunksOfAux c (fuel + 1) (x :: xs)).map List.length
                = ((x :: xs).take c).length
                    :: (chunksOfAux c fuel ((x :: xs).drop c)).map List.length := rfl
              _ = (x :: xs).length :: [] := by
                  rw [htake, hdropnil, chunksOfAux_nil]; rfl
              _ = List.replicate ((x :: xs).length / c) c
                    ++ (if (x :: xs).length % c = 0 then []
                        else [(x :: xs).length % c]) := by
                  rw [h1, h2, if_neg (by simp)]
                  rfl
          · obtain ⟨m, hm⟩ : ∃ m, (x :: xs).length = m + c :=
              ⟨(x :: xs).length - c, by omega⟩
            have hdroplen : ((x :: xs).drop c).length = m := by
              rw [List.length_drop]; omega
            have hmle : ((x :: xs).drop c).length ≤ fuel := by
              rw [hdroplen]
              have hlen : (x :: xs).length = xs.length + 1 := rfl
              omega
            have hih := ih ((x :: xs).drop c) hmle
            rw [hdroplen] at hih
            have htake : ((x :: xs).take c).length = c := by
              rw [List.length_take]
              exact Nat.min_eq_left hge
            calc (chunksOfAux c (fuel + 1) (x :: xs)).map List.length
                = ((x :: xs).take c).length
                    :: (chunksOfAux c fuel ((x :: xs).drop c)).map List.length := rfl
              _ = c :: (List.replicate (m / c) c
                    ++ (if m % c = 0 then [] else [m % c])) := by
                  rw [htake, hih]
              _ = List.replicate ((x :: xs).length / c) c
                    ++ (if (x :: xs).length % c = 0 then []
                        else [(x :: xs).length % c]) := by
                  rw [hm, Nat.add_div_right _ hc, Nat.add_mod_right,
                    List.replicate_succ]
                  rfl

/-- The batch slices of the orchestrator concatenate to the message
list: consecutive groups, no item dropped or duplicated. -/
theorem chunksOf_join {α : Type} (c : Nat) (hc : 0 < c) (l : List α) :
    (chunksOf c l).flatten = l := by
  unfold chunksOf
  rw [if_neg hc.ne']
  exact chunksOfAux_join c hc l.length l (le_refl _)

/-- The batch sizes of the orchestrator in closed form. -/
theorem chunksOf_map_length {α : Type} (c : Nat) (hc : 0 < c) (l : List α) :
    (chunksOf c l).map List.length
      = List.replicate (l.length / c) c
          ++ (if l.length % c = 0 then [] else [l.length % c]) := by
  unfold chunksOf
  rw [if_neg hc.ne']
  exact chunksOfAux_map_length c hc l.length l (le_refl _)

/-- Helper for C7: the progress values recorded after the successive
batches are non-decreasing and grow by at most `C` per batch, for any
batch list whose batches have length at most `C`. -/
theorem batchLoop_chain (success : Message → Bool) (cb : Nat → Bool)
    (C : Nat) :
    ∀ (bs : List (List Message)) (i acc : Nat),
      (∀ b ∈ bs, b.length ≤ C) →
      List.Chain' (fun a b => a ≤ b ∧ b ≤ a + C)
        (acc :: (batchLoop success cb bs i acc).1) := by
  intro bs
  induction bs with
  | nil => intro i acc _; exact List.chain'_singleton acc
  | cons b bs ih =>
      intro i acc h
      by_cases hcb : cb i = true
      · show List.Chain' _
          (acc :: (if cb i = true then ([], acc)
            else ((acc + (b.filter success).length)
                :: (batchLoop success cb bs (i + 1)
                  (acc + (b.filter success).length)).1,
              (batchLoop success cb bs (i + 1)
                (acc + (b.filter success).length)).2)).1)
        rw [if_pos hcb]
        exact List.chain'_singleton acc
      · have hb : b.length ≤ C := h b (List.mem_cons_self b bs)
        have hrest := ih (i + 1) (acc + (b.filter success).length)
          (fun x hx => h x (List.mem_cons_of_mem b hx))
        have hfle : (b.filter success).length ≤ b.length :=
          List.length_filter_le _ _
        show List.Chain' _
          (acc :: (if cb i = true then ([], acc)
            else ((acc + (b.filter success).length)
                :: (batchLoop success cb bs (i + 1)
                  (acc + (b.filter success).length)).1,
              (batchLoop success cb bs (i + 1)
                (acc + (b.filter success).length)).2)).1)
        rw [if_neg hcb]
        exact List.chain'_cons.mpr
          ⟨⟨Nat.le_add_right _ _, by omega⟩, hrest⟩

/-- C7: the orchestrator partitions the resolved list into consecutive
groups of size `C` — `L / C` full groups followed by one group of
`L % C` when nonzero — awaits each group before the next (the batch loop
is sequential by construction), checks the cancelled flag before each
group and stops if it is set, and the progress values observed after the
batches increase monotonically by at most `C` per batch; in particular 5
items with limit 2 yield batch sizes `[2, 2, 1]`. -/
theorem orchestrator_batches (C : Nat) (hc : 0 < C) (msgs : List Message)
    (success : Message → Bool) (cancelledBefore : Nat → Bool) :
    (chunksOf C msgs).flatten = msgs ∧
    (chunksOf C msgs).map List.length
      = List.replicate (msgs.length / C) C
          ++ (if msgs.length % C = 0 then [] else [msgs.length % C]) ∧
    (∀ b bs i acc, cancelledBefore i = true →
      batchLoop success cancelledBefore (b :: bs) i acc = ([], acc)) ∧
    List.Chain' (fun a b => a ≤ b ∧ b ≤ a + C)
      (0 :: (batchLoop success cancelledBefore (chunksOf C msgs) 0 0).1) ∧
    (chunksOf 2 ([⟨1, true⟩, ⟨2, true⟩, ⟨3, true⟩, ⟨4, true⟩,
        ⟨5, true⟩] : List Message)).map List.length = [2, 2, 1] := by
  refine ⟨chunksOf_join C hc msgs, chunksOf_map_length C hc msgs,
    ?_, ?_, by decide⟩
  · intro b bs i acc h
    simp [batchLoop, h]
  · apply batchLoop_chain
    intro b hb
    have hmem : b.length ∈ (chunksOf C msgs).map List.length :=
      List.mem_map_of_mem _ hb
    rw [chunksOf_map_length C hc msgs] at hmem
    rcases List.mem_append.mp hmem with h | h
    · exact le_of_eq (List.eq_of_mem_replicate h)
    · by_cases hz : msgs.length % C = 0
      · rw [if_pos hz] at h
        simp at h
      · rw [if_neg hz] at h
        have hbl : b.length = msgs.length % C := by simpa using h
        rw [hbl]
        exact le_of_lt (Nat.mod_lt _ hc)

/-- Witness for C7 at concurrency limit 2 over five messages, with an
always-clear cancellation flag and alternating worker outcomes. -/
theorem orchestrator_batches_witness :
    0 < 2 ∧
    ((chunksOf 2 ([⟨1, true⟩, ⟨2, true⟩, ⟨3, true⟩, ⟨4, true⟩,
        ⟨5, true⟩] : List Message)).flatten
      = [⟨1, true⟩, ⟨2, true⟩, ⟨3, true⟩, ⟨4, true⟩, ⟨5, true⟩] ∧
    (chunksOf 2 ([⟨1, true⟩, ⟨2, true⟩, ⟨3, true⟩, ⟨4, true⟩,
        ⟨5, true⟩] : List Message)).map List.length
      = List.replicate (5 / 2) 2 ++ (if 5 % 2 = 0 then [] else [5 % 2]) ∧
    (∀ b bs i acc, (fun _ => false) i = true →
      batchLoop (fun m => m.hasMedia) (fun _ => false) (b :: bs) i acc
        = ([], acc)) ∧
    List.Chain' (fun a b => a ≤ b ∧ b ≤ a + 2)
      (0 :: (batchLoop (fun m => m.hasMedia) (fun _ => false)
        (chunksOf 2 ([⟨1, true⟩, ⟨2, true⟩, ⟨3, true⟩, ⟨4, true⟩,
          ⟨5, true⟩] : List Message)) 0 0).1) ∧
    (chunksOf 2 ([⟨1, true⟩, ⟨2, true⟩, ⟨3, true⟩, ⟨4, true⟩,
        ⟨5, true⟩] : List Message)).map List.length = [2, 2, 1]) :=
  ⟨by decide,
   orchestrator_batches 2 (by decide)
     ([⟨1, true⟩, ⟨2, true⟩, ⟨3, true⟩, ⟨4, true⟩, ⟨5, true⟩] : List Message)
     (fun m => m.hasMedia) (fun _ => false)⟩

/-- Witness for C6 with the concrete stall message raised by the monitor
loop of `download_single_file`. -/
theorem worker_retries_with_backoff_witness :
    isTimeoutMsg "Download stalled - no progress for 16s" = true ∧
    isCancelledMsg "Download stalled - no progress for 16s" = false ∧
    ((download_single_file
        (fun _ => AttemptOutcome.raised "Download stalled - no progress for 16s")
        "a.bin" "fid" "t" (initStatus "s") 3).attemptsMade = 3 ∧
      (download_single_file
        (fun _ => AttemptOutcome.raised "Download stalled - no progress for 16s")
        "a.bin" "fid" "t" (initStatus "s") 3).waits = [2 ^ 0, 2 ^ 1] ∧
      List.Chain' (· < ·) (download_single_file
        (fun _ => AttemptOutcome.raised "Download stalled - no progress for 16s")
        "a.bin" "fid" "t" (initStatus "s") 3).waits ∧
      (download_single_file
        (fun _ => AttemptOutcome.raised "Download stalled - no progress for 16s")
        "a.bin" "fid" "t" (initStatus "s") 3).result = none ∧
      (download_single_file
        (fun _ => AttemptOutcome.raised "Download stalled - no progress for 16s")
        "a.bin" "fid" "t" (initStatus "s") 3).state.completed_downloads
        = (initStatus "s").completed_downloads ∧
      alookup (download_single_file
        (fun _ => AttemptOutcome.raised "Download stalled - no progress for 16s")
        "a.bin" "fid" "t" (initStatus "s") 3).state.concurrent_downloads "fid"
        = none ∧
      (download_single_file
        (fun _ => AttemptOutcome.raised "Download stalled - no progress for 16s")
        "a.bin" "fid" "t" (initStatus "s") 3).inserted.map JobEntry.retry_attempt
        = [none, some 2, some 3]) :=
  ⟨by decide, by decide,
   worker_retries_with_backoff (initStatus "s") "a.bin" "fid" "t"
     (fun _ => "Download stalled - no progress for 16s")
     (fun _ => show isTimeoutMsg "Download stalled - no progress for 16s"
         = true by decide)
     (fun _ => show isCancelledMsg "Download stalled - no progress for 16s"
         = false by decide)⟩

end Telefetchr
